import Mathlib

/-!
Shallow embedding of the Logiq bot's persistence gateway
(`src/database/db_manager.py`) and the admin command handlers that the
specification's observable claims refer to (`src/cogs/admin.py`,
`src/main.py`).

Modelling conventions:

* MongoDB documents are association lists `Doc := List (String × Value)`
  in insertion order, matching both Python `dict` iteration order and
  MongoDB field order.  A collection is a `List Doc` in insertion order;
  `find_one` returns the first matching document and `update_one`
  rewrites the first matching document, as the real driver does.
* The event-loop clock (`asyncio.get_event_loop().time()`) is passed in
  as an explicit integer parameter `t`.
* `update_one(..., {"$set": data})` reports `modified_count > 0`, which
  is true exactly when the matched document actually changed; the model
  computes that with a structural equality test on documents.
* `$inc` on an absent field creates it with the increment as value
  (MongoDB behaviour); `$inc` on a non-numeric value is a server error
  in MongoDB and is never reached by the specification's claims, so the
  model does not distinguish it.
-/

namespace Logiq

/-- A BSON/JSON-style value as stored by the document database. -/
inductive Value : Type where
  | vint (n : Int)
  | vstr (s : String)
  | vnull
  | vlist (l : List Value)
  | vdoc (d : List (String × Value))

mutual

/-- Structural equality test on values (used to model MongoDB's
`modified_count`, which counts documents that actually changed). -/
def Value.beq : Value → Value → Bool
  | .vint a, .vint b => a == b
  | .vstr a, .vstr b => a == b
  | .vnull, .vnull => true
  | .vlist a, .vlist b => Value.beqList a b
  | .vdoc a, .vdoc b => Value.beqDoc a b
  | _, _ => false

/-- Structural equality test on lists of values. -/
def Value.beqList : List Value → List Value → Bool
  | [], [] => true
  | a :: as, b :: bs => Value.beq a b && Value.beqList as bs
  | _, _ => false

/-- Structural equality test on documents. -/
def Value.beqDoc : List (String × Value) → List (String × Value) → Bool
  | [], [] => true
  | (k1, v1) :: as, (k2, v2) :: bs => k1 == k2 && Value.beq v1 v2 && Value.beqDoc as bs
  | _, _ => false

end

instance : BEq Value := ⟨Value.beq⟩

/-- A stored document: field names to values, in insertion order. -/
abbrev Doc := List (String × Value)

/-- Python `d[k]` lookup / MongoDB field access: the value of the first
(and, under the no-duplicate-key invariant, only) binding of `k`. -/
def Doc.getVal (d : Doc) (k : String) : Option Value :=
  (d.find? (fun p => p.1 == k)).map Prod.snd

/-- Python `d.get(k, default)`. -/
def Doc.getValD (d : Doc) (k : String) (v : Value) : Value :=
  (d.getVal k).getD v

/-- Python `d[k] = v` / MongoDB `$set` of a single field: replace the
binding in place if the key is present, append it otherwise. -/
def Doc.setKey : Doc → String → Value → Doc
  | [], k, v => [(k, v)]
  | (k1, v1) :: rest, k, v =>
    if k1 == k then (k1, v) :: rest else (k1, v1) :: Doc.setKey rest k v

/-- Python `d.update(patch)` and the document-level effect of MongoDB
`{"$set": patch}`: set each field of `patch` in iteration order. -/
def Doc.updateFields (d : Doc) (patch : Doc) : Doc :=
  patch.foldl (fun acc p => acc.setKey p.1 p.2) d

/-- MongoDB `$inc` of a single integer field: absent fields are created
holding the increment (i.e. treated as 0). -/
def Doc.incKey (d : Doc) (k : String) (amount : Int) : Doc :=
  match d.getVal k with
  | some (.vint n) => d.setKey k (.vint (n + amount))
  | _ => d.setKey k (.vint amount)

/-- The two collections of the database that the claims touch. -/
structure Store where
  users : List Doc
  guilds : List Doc

/-- Driver `find_one`: the first document matching the filter. -/
def findOne (c : List Doc) (p : Doc → Bool) : Option Doc :=
  c.find? p

/-- Driver `update_one` (no upsert): apply `f` to the first document
matching `p`; return `modified_count > 0` (whether that document
actually changed) together with the new collection. -/
def updateOne : List Doc → (Doc → Bool) → (Doc → Doc) → Bool × List Doc
  | [], _, _ => (false, [])
  | d :: rest, p, f =>
    if p d then (!(Value.beqDoc (f d) d), f d :: rest)
    else
      let r := updateOne rest p f
      (r.1, d :: r.2)

namespace DatabaseManager

/-- The filter `{"user_id": u, "guild_id": g}`: the document's
`user_id` field holds the integer `u` and its `guild_id` field holds
the integer `g`. -/
def userFilter (u g : Int) (d : Doc) : Bool :=
  (match d.getVal "user_id" with
   | some (.vint x) => x == u
   | _ => false) &&
  (match d.getVal "guild_id" with
   | some (.vint y) => y == g
   | _ => false)

/-- The filter `{"guild_id": g}`. -/
def guildFilter (g : Int) (d : Doc) : Bool :=
  match d.getVal "guild_id" with
  | some (.vint y) => y == g
  | _ => false

/-- `DatabaseManager.get_user`. -/
def get_user (s : Store) (u g : Int) : Option Doc :=
  findOne s.users (userFilter u g)

/-- The default user document built by `DatabaseManager.create_user`
before the caller-supplied overrides are merged in. -/
def defaultUser (u g t : Int) : Doc :=
  [("user_id", .vint u), ("guild_id", .vint g), ("xp", .vint 0), ("level", .vint 0),
   ("balance", .vint 1000), ("inventory", .vlist []), ("warnings", .vlist []),
   ("created_at", .vint t)]

/-- `DatabaseManager.create_user`: merge the defaults with the
caller-supplied overrides (`user_data.update(data)`), insert the result,
and return it.  (`data = None` and `data = {}` both skip the merge in
the source; `updateFields` with `[]` is the identity, so one equation
covers both.) -/
def create_user (s : Store) (u g : Int) (data : Doc) (t : Int) : Doc × Store :=
  let user_data := (defaultUser u g t).updateFields data
  (user_data, { s with users := s.users ++ [user_data] })

/-- `DatabaseManager.update_user`: `update_one` with `{"$set": data}`. -/
def update_user (s : Store) (u g : Int) (data : Doc) : Bool × Store :=
  let r := updateOne s.users (userFilter u g) (fun d => d.updateFields data)
  (r.1, { s with users := r.2 })

/-- `DatabaseManager.increment_user_field`: `update_one` with
`{"$inc": {field: amount}}`. -/
def increment_user_field (s : Store) (u g : Int) (field : String) (amount : Int) :
    Bool × Store :=
  let r := updateOne s.users (userFilter u g) (fun d => d.incKey field amount)
  (r.1, { s with users := r.2 })

/-- `DatabaseManager.get_guild`. -/
def get_guild (s : Store) (g : Int) : Option Doc :=
  findOne s.guilds (guildFilter g)

/-- The default guild document built by `DatabaseManager.create_guild`
before the caller-supplied overrides are merged in. -/
def defaultGuild (g t : Int) : Doc :=
  [("guild_id", .vint g), ("prefix", .vstr "/"), ("modules", .vdoc []),
   ("log_channel", .vnull), ("welcome_channel", .vnull), ("verified_role", .vnull),
   ("created_at", .vint t)]

/-- `DatabaseManager.create_guild`. -/
def create_guild (s : Store) (g : Int) (data : Doc) (t : Int) : Doc × Store :=
  let guild_data := (defaultGuild g t).updateFields data
  (guild_data, { s with guilds := s.guilds ++ [guild_data] })

/-- `DatabaseManager.update_guild`: `update_one` with `{"$set": data}`. -/
def update_guild (s : Store) (g : Int) (data : Doc) : Bool × Store :=
  let r := updateOne s.guilds (guildFilter g) (fun d => d.updateFields data)
  (r.1, { s with guilds := r.2 })

/-- The integer sort key used by `.sort("xp", -1)`; documents without an
integer `xp` field never arise from this codebase's writes. -/
def xpOf (d : Doc) : Int :=
  match d.getVal "xp" with
  | some (.vint n) => n
  | _ => 0

/-- `DatabaseManager.get_leaderboard`: `find({"guild_id": g})`, sort by
`xp` descending, cap at `limit`. -/
def get_leaderboard (s : Store) (g : Int) (limit : Nat) : List Doc :=
  (((s.users.filter (guildFilter g)).mergeSort
    (fun a b => decide (xpOf b ≤ xpOf a)))).take limit

/-- `user.get("balance", 0)` as read by `remove_balance`: the stored
balance, 0 when the field is absent.  (A non-integer stored balance
would make the Python comparison raise; no write of this codebase can
produce one.) -/
def balanceOf (d : Doc) : Int :=
  match d.getVal "balance" with
  | some (.vint n) => n
  | _ => 0

/-- `DatabaseManager.add_balance`. -/
def add_balance (s : Store) (u g amount : Int) : Bool × Store :=
  increment_user_field s u g "balance" amount

/-- The second half of `DatabaseManager.remove_balance`, i.e. everything
after the `await self.get_user(...)` suspension point, applied to the
store as it stands when the coroutine resumes: check the balance that
was read and conditionally issue the `$inc`.  (`if user and ...`: a
`None` read fails the check; an empty dict is also falsy in Python but
no document matching the key filter can be empty.) -/
def remove_balance_resume (s : Store) (u g amount : Int) (read : Option Doc) :
    Bool × Store :=
  match read with
  | some user =>
    if amount ≤ balanceOf user then increment_user_field s u g "balance" (-amount)
    else (false, s)
  | none => (false, s)

/-- `DatabaseManager.remove_balance` run without interleaving: the read
and the conditional write see the same store. -/
def remove_balance (s : Store) (u g amount : Int) : Bool × Store :=
  remove_balance_resume s u g amount (get_user s u g)

/-- `DatabaseManager.get_warnings`:
`user.get("warnings", []) if user else []`. -/
def get_warnings (s : Store) (u g : Int) : Value :=
  match get_user s u g with
  | some user => user.getValD "warnings" (.vlist [])
  | none => .vlist []

end DatabaseManager

/-! ### Cooperative interleaving of `remove_balance` (src §5 concern)

`remove_balance` contains an `await` between its read (`get_user`) and
its conditional write (`increment_user_field`); under asyncio another
invocation for the same key may run at that suspension point.  The model
below runs two invocations as a pair of two-step coroutines under an
explicit schedule. -/

/-- The progress of one `remove_balance` coroutine: not yet started,
suspended after the `get_user` read, or finished with its result. -/
inductive RBPhase : Type where
  | start
  | readDone (read : Option Doc)
  | finished (success : Bool)

/-- One cooperative step of a `remove_balance` invocation for key
`(u, g)`: from `start`, perform the `get_user` read; from `readDone`,
perform the balance check and conditional `$inc` on the current store. -/
def rbStep (u g amount : Int) : RBPhase × Store → RBPhase × Store
  | (.start, s) => (.readDone (DatabaseManager.get_user s u g), s)
  | (.readDone r, s) =>
    let res := DatabaseManager.remove_balance_resume s u g amount r
    (.finished res.1, res.2)
  | (.finished b, s) => (.finished b, s)

/-- Two `remove_balance` coroutines for the same key sharing one store. -/
structure RBPair where
  phase1 : RBPhase
  phase2 : RBPhase
  store : Store

/-- Run the two coroutines under a schedule: `true` steps the first
invocation (amount `a1`), `false` steps the second (amount `a2`). -/
def rbRun (u g a1 a2 : Int) : List Bool → RBPair → RBPair
  | [], st => st
  | turn :: rest, st =>
    if turn then
      let r := rbStep u g a1 (st.phase1, st.store)
      rbRun u g a1 a2 rest { st with phase1 := r.1, store := r.2 }
    else
      let r := rbStep u g a2 (st.phase2, st.store)
      rbRun u g a1 a2 rest { st with phase2 := r.1, store := r.2 }

/-! ### Command handlers (src/cogs/admin.py, src/main.py) -/

/-- The result of running a Python handler body: a returned value, or an
exception propagating out of the handler. -/
inductive PyResult (α : Type) : Type where
  | ok (a : α)
  | exc (message : String)

namespace Admin

/-- The response produced by the purge handler. -/
inductive PurgeResponse : Type where
  | invalidAmount
  | purged (deleted : Nat)
  | missingPermissions

/-- The observable outcome of one purge invocation: the response sent,
and how many platform bulk-delete calls and persistence-gateway calls
the handler issued. -/
structure PurgeOutcome where
  response : PurgeResponse
  platformCalls : Nat
  dbCalls : Nat

/-- `Admin.purge` (the slash and text-prefixed variants share this exact
logic): reject `amount` outside `[1, 100]` before any call; otherwise
invoke `channel.purge(limit=amount)`, which deletes up to `amount`
recent messages — the channel is modelled by its number `deletable` of
deletable messages — and report the actual deleted count; a
`discord.Forbidden` from the platform (modelled by the `forbidden`
flag) is reported as a permission error.  The handler never touches the
persistence gateway. -/
def purge (amount : Int) (deletable : Nat) (forbidden : Bool) : PurgeOutcome :=
  if amount < 1 || amount > 100 then
    { response := .invalidAmount, platformCalls := 0, dbCalls := 0 }
  else if forbidden then
    { response := .missingPermissions, platformCalls := 1, dbCalls := 0 }
  else
    { response := .purged (min (Int.toNat amount) deletable), platformCalls := 1, dbCalls := 0 }

/-- Python truthiness rendering of `guild_config.get(k)` as a channel
mention: `None`, an absent field and the falsy id `0` all render as
"Not set". -/
def renderChannelRef (d : Doc) (k : String) : String :=
  match d.getVal k with
  | some (.vint c) => if c == 0 then "Not set" else "<#" ++ toString c ++ ">"
  | _ => "Not set"

/-- Python truthiness rendering of `guild_config.get("verified_role")`
as a role mention. -/
def renderRoleRef (d : Doc) : String :=
  match d.getVal "verified_role" with
  | some (.vint r) => if r == 0 then "Not set" else "<@&" ++ toString r ++ ">"
  | _ => "Not set"

/-- The response produced by the config handler. -/
inductive ConfigResponse : Type where
  | noConfiguration
  | configEmbed (logChannel welcomeChannel verifiedRole : String) (verificationType : Value)

/-- `Admin.config` (both variants), taking the bot's database reference
as the handler sees it.  `main.py`'s `setup_hook` sets `self.db = None`
when `connect()` fails, so a disconnected gateway reaches the handler as
`none`; the handler body starts with `await self.db.get_guild(...)`
with no guard and no `try`, so in that state the attribute access raises
`AttributeError`, which propagates out of the handler.  With a live
store, an absent guild record yields the explicit "no configuration"
response, and an existing record is rendered field by field, with
`guild_config.get('verification_type', 'button')` supplying "button"
when the field is absent. -/
def config (db : Option Store) (gid : Int) : PyResult ConfigResponse :=
  match db with
  | none => .exc "AttributeError: NoneType object has no attribute get_guild"
  | some s =>
    match DatabaseManager.get_guild s gid with
    | none => .ok .noConfiguration
    | some g =>
      .ok (.configEmbed (renderChannelRef g "log_channel")
        (renderChannelRef g "welcome_channel") (renderRoleRef g)
        (g.getValD "verification_type" (.vstr "button")))

end Admin

/-! ### Concrete fixtures used by witnesses and counterexamples -/

/-- The empty database. -/
def emptyStore : Store := ⟨[], []⟩

/-- A database holding exactly the default user record for key `(1, 1)`
(in particular, `balance = 1000`). -/
def oneUserStore : Store := (DatabaseManager.create_user emptyStore 1 1 [] 0).2

/-- A database holding one record for key `(1, 1)` that has no
`warnings` field. -/
def noWarningsStore : Store := ⟨[[("user_id", .vint 1), ("guild_id", .vint 1)]], []⟩

/-! ### Basic lemmas about documents and collections -/

theorem Doc.getVal_setKey_self (d : Doc) (k : String) (v : Value) :
    (d.setKey k v).getVal k = some v := by
  induction d with
  | nil => simp [Doc.setKey, Doc.getVal]
  | cons p rest ih =>
    obtain ⟨k1, v1⟩ := p
    by_cases h : k1 = k
    · subst h
      simp [Doc.setKey, Doc.getVal]
    · simp only [Doc.setKey, beq_eq_false_iff_ne, ne_eq, h, not_false_eq_true,
        if_neg, beq_iff_eq]
      simpa [Doc.getVal, h] using ih

theorem Doc.getVal_setKey_ne (d : Doc) (k k2 : String) (v : Value) (h : k2 ≠ k) :
    (d.setKey k v).getVal k2 = d.getVal k2 := by
  induction d with
  | nil => simp [Doc.setKey, Doc.getVal, Ne.symm h]
  | cons p rest ih =>
    obtain ⟨k1, v1⟩ := p
    by_cases h1 : k1 = k
    · subst h1
      have h2 : k1 ≠ k2 := fun hk => h hk.symm
      simp [Doc.setKey, Doc.getVal, h2]
    · by_cases h2 : k1 = k2
      · subst h2
        simp [Doc.setKey, Doc.getVal, h1]
      · simp only [Doc.setKey, beq_iff_eq, h1, if_neg, not_false_eq_true]
        simpa [Doc.getVal, h2] using ih

theorem Doc.getVal_incKey_ne (d : Doc) (k k2 : String) (a : Int) (h : k2 ≠ k) :
    (d.incKey k a).getVal k2 = d.getVal k2 := by
  unfold Doc.incKey
  split <;> exact Doc.getVal_setKey_ne d k k2 _ h

theorem Doc.getVal_updateFields_of_absent (d : Doc) (patch : Doc) (k : String)
    (h : patch.getVal k = none) : (d.updateFields patch).getVal k = d.getVal k := by
  induction patch generalizing d with
  | nil => rfl
  | cons p rest ih =>
    obtain ⟨k1, v1⟩ := p
    have hk1 : k1 ≠ k := by
      intro hk
      subst hk
      simp [Doc.getVal] at h
    have hrest : Doc.getVal rest k = none := by
      simpa [Doc.getVal, hk1] using h
    show Doc.getVal (Doc.updateFields (d.setKey k1 v1) rest) k = d.getVal k
    rw [ih _ hrest]
    exact Doc.getVal_setKey_ne d k1 k v1 (fun hk => hk1 hk.symm)

theorem DatabaseManager.userFilter_eq_true {u g : Int} {d : Doc} :
    DatabaseManager.userFilter u g d = true ↔
      d.getVal "user_id" = some (.vint u) ∧ d.getVal "guild_id" = some (.vint g) := by
  unfold DatabaseManager.userFilter
  constructor
  · intro h
    rw [Bool.and_eq_true] at h
    obtain ⟨h1, h2⟩ := h
    constructor
    · revert h1
      split
      · rename_i x heq
        intro hx
        rw [beq_iff_eq] at hx
        rw [heq, hx]
      · intro hx
        exact absurd hx (by simp)
    · revert h2
      split
      · rename_i y heq
        intro hy
        rw [beq_iff_eq] at hy
        rw [heq, hy]
      · intro hy
        exact absurd hy (by simp)
  · intro h
    rw [h.1, h.2]
    simp

theorem DatabaseManager.guildFilter_eq_true {g : Int} {d : Doc} :
    DatabaseManager.guildFilter g d = true ↔ d.getVal "guild_id" = some (.vint g) := by
  unfold DatabaseManager.guildFilter
  constructor
  · intro h
    revert h
    split
    · rename_i y heq
      intro hy
      rw [beq_iff_eq] at hy
      rw [heq, hy]
    · intro hy
      exact absurd hy (by simp)
  · intro h
    rw [h]
    simp

theorem updateOne_of_find?_none (c : List Doc) (p : Doc → Bool) (f : Doc → Doc)
    (h : c.find? p = none) : updateOne c p f = (false, c) := by
  induction c with
  | nil => rfl
  | cons d rest ih =>
    by_cases hd : p d
    · rw [List.find?_cons_of_pos _ hd] at h
      exact absurd h (by simp)
    · rw [List.find?_cons_of_neg _ hd] at h
      unfold updateOne
      rw [if_neg (by simp [hd]), ih h]

theorem updateOne_find?_of_found (c : List Doc) (p : Doc → Bool) (f : Doc → Doc)
    (d : Doc) (hfind : c.find? p = some d) (hp : p (f d) = true) :
    (updateOne c p f).2.find? p = some (f d) := by
  induction c with
  | nil => simp at hfind
  | cons a rest ih =>
    by_cases ha : p a
    · rw [List.find?_cons_of_pos _ ha] at hfind
      obtain rfl : a = d := by injection hfind
      unfold updateOne
      rw [if_pos ha]
      exact List.find?_cons_of_pos _ hp
    · rw [List.find?_cons_of_neg _ ha] at hfind
      unfold updateOne
      rw [if_neg (by simp [ha])]
      show (a :: (updateOne rest p f).2).find? p = some (f d)
      rw [List.find?_cons_of_neg _ ha]
      exact ih hfind

theorem DatabaseManager.get_user_after_inc_balance (s : Store) (u g amount b : Int)
    (d : Doc) (hget : DatabaseManager.get_user s u g = some d)
    (hbal : d.getVal "balance" = some (.vint b)) :
    DatabaseManager.get_user (DatabaseManager.increment_user_field s u g "balance" amount).2 u g
      = some (d.setKey "balance" (.vint (b + amount))) := by
  have hfd : d.incKey "balance" amount = d.setKey "balance" (.vint (b + amount)) := by
    unfold Doc.incKey
    rw [hbal]
  have hpd : DatabaseManager.userFilter u g d = true :=
    List.find?_some hget
  obtain ⟨hu, hg⟩ := DatabaseManager.userFilter_eq_true.mp hpd
  have hpfd : DatabaseManager.userFilter u g (d.setKey "balance" (.vint (b + amount))) = true := by
    refine DatabaseManager.userFilter_eq_true.mpr ⟨?_, ?_⟩
    · rw [Doc.getVal_setKey_ne d _ _ _ (by decide)]
      exact hu
    · rw [Doc.getVal_setKey_ne d _ _ _ (by decide)]
      exact hg
  show (updateOne s.users (DatabaseManager.userFilter u g)
      (fun d => d.incKey "balance" amount)).2.find? (DatabaseManager.userFilter u g)
      = some (d.setKey "balance" (.vint (b + amount)))
  have := updateOne_find?_of_found s.users (DatabaseManager.userFilter u g)
    (fun d => d.incKey "balance" amount) d hget
    (by show DatabaseManager.userFilter u g (d.incKey "balance" amount) = true
        rw [hfd]
        exact hpfd)
  rw [this]
  show some (d.incKey "balance" amount) = some (d.setKey "balance" (.vint (b + amount)))
  rw [hfd]

/-! ### Claims -/

/-- C9: `create_user` with no caller-supplied overrides produces a
record with `xp = 0`, `level = 0`, `balance = 1000`, an empty inventory
and an empty warnings sequence — in particular the starting balance is
1000, not 0. -/
theorem create_user_default_fields (s : Store) (u g t : Int) :
    ((DatabaseManager.create_user s u g [] t).1).getVal "xp" = some (.vint 0) ∧
    ((DatabaseManager.create_user s u g [] t).1).getVal "level" = some (.vint 0) ∧
    ((DatabaseManager.create_user s u g [] t).1).getVal "balance" = some (.vint 1000) ∧
    ((DatabaseManager.create_user s u g [] t).1).getVal "inventory" = some (.vlist []) ∧
    ((DatabaseManager.create_user s u g [] t).1).getVal "warnings" = some (.vlist []) :=
  ⟨rfl, rfl, rfl, rfl, rfl⟩

/-- C10: `get_warnings` returns the empty list both when no user record
exists for the key and when the record exists but has no `warnings`
field. -/
theorem get_warnings_degrades_to_empty (s : Store) (u g : Int) :
    (DatabaseManager.get_user s u g = none →
      DatabaseManager.get_warnings s u g = .vlist []) ∧
    (∀ d, DatabaseManager.get_user s u g = some d → d.getVal "warnings" = none →
      DatabaseManager.get_warnings s u g = .vlist []) := by
  constructor
  · intro h
    unfold DatabaseManager.get_warnings
    rw [h]
  · intro d hd hw
    unfold DatabaseManager.get_warnings
    rw [hd]
    show d.getValD "warnings" (.vlist []) = .vlist []
    unfold Doc.getValD
    rw [hw]
    rfl

/-- Witness for C10 at the empty store and at a store whose only record
for the key lacks a `warnings` field. -/
theorem get_warnings_degrades_to_empty_witness :
    DatabaseManager.get_warnings emptyStore 1 1 = .vlist [] ∧
    DatabaseManager.get_warnings noWarningsStore 1 1 = .vlist [] :=
  ⟨(get_warnings_degrades_to_empty emptyStore 1 1).1 rfl,
   (get_warnings_degrades_to_empty noWarningsStore 1 1).2
     [("user_id", .vint 1), ("guild_id", .vint 1)] rfl rfl⟩

/-- C2: a single non-interleaved `remove_balance(key, amount)` returns
`False` and leaves the store (hence the whole user record) untouched
when `amount` exceeds the stored balance; when the balance is at least
`amount` it decrements the balance by `amount` and changes nothing else
in the record (`setKey` touches only the `balance` field). -/
theorem remove_balance_single_invocation (s : Store) (u g amount b : Int) (d : Doc)
    (hget : DatabaseManager.get_user s u g = some d)
    (hbal : d.getVal "balance" = some (.vint b)) :
    (b < amount → DatabaseManager.remove_balance s u g amount = (false, s)) ∧
    (amount ≤ b →
      DatabaseManager.get_user (DatabaseManager.remove_balance s u g amount).2 u g
        = some (d.setKey "balance" (.vint (b - amount)))) := by
  have hbo : DatabaseManager.balanceOf d = b := by
    unfold DatabaseManager.balanceOf
    rw [hbal]
  constructor
  · intro hlt
    unfold DatabaseManager.remove_balance
    rw [hget]
    show (if amount ≤ DatabaseManager.balanceOf d
      then DatabaseManager.increment_user_field s u g "balance" (-amount)
      else (false, s)) = (false, s)
    rw [hbo, if_neg (not_le.mpr hlt)]
  · intro hle
    unfold DatabaseManager.remove_balance
    rw [hget]
    show DatabaseManager.get_user
      (if amount ≤ DatabaseManager.balanceOf d
        then DatabaseManager.increment_user_field s u g "balance" (-amount)
        else (false, s)).2 u g = some (d.setKey "balance" (.vint (b - amount)))
    rw [hbo, if_pos hle,
      show b - amount = b + -amount from sub_eq_add_neg b amount]
    exact DatabaseManager.get_user_after_inc_balance s u g (-amount) b d hget hbal

/-- Witness for C2: with the default record (balance 1000), removing
2000 fails and changes nothing, while removing 300 leaves balance 700. -/
theorem remove_balance_single_invocation_witness :
    DatabaseManager.remove_balance oneUserStore 1 1 2000 = (false, oneUserStore) ∧
    DatabaseManager.get_user (DatabaseManager.remove_balance oneUserStore 1 1 300).2 1 1
      = some ((DatabaseManager.defaultUser 1 1 0).setKey "balance" (.vint 700)) :=
  ⟨(remove_balance_single_invocation oneUserStore 1 1 2000 1000
      (DatabaseManager.defaultUser 1 1 0) rfl rfl).1 (by decide),
   (remove_balance_single_invocation oneUserStore 1 1 300 1000
      (DatabaseManager.defaultUser 1 1 0) rfl rfl).2 (by decide)⟩

/-- C1 is refuted by the code: under the asyncio interleaving in which
both invocations pass their `get_user` read before either conditional
`$inc` runs (schedule `[true, false, true, false]`), two
`remove_balance` calls of 1000 each against a stored balance of 1000
(so their sum exceeds the balance) BOTH return `True`, and the stored
balance afterwards is `-1000`. -/
theorem remove_balance_interleaving_double_spend :
    (DatabaseManager.get_user oneUserStore 1 1).map DatabaseManager.balanceOf
      = some 1000 ∧
    (rbRun 1 1 1000 1000 [true, false, true, false]
      ⟨.start, .start, oneUserStore⟩).phase1 = .finished true ∧
    (rbRun 1 1 1000 1000 [true, false, true, false]
      ⟨.start, .start, oneUserStore⟩).phase2 = .finished true ∧
    (DatabaseManager.get_user
      (rbRun 1 1 1000 1000 [true, false, true, false]
        ⟨.start, .start, oneUserStore⟩).store 1 1).map DatabaseManager.balanceOf
      = some (-1000) :=
  ⟨rfl, rfl, rfl, rfl⟩

/-- C4 is refuted by the code: when `connect()` failed at startup,
`main.py` leaves `self.db = None` and the config handler's unguarded
`await self.db.get_guild(...)` raises `AttributeError`, which
propagates out of the handler instead of producing a failure or
"no configuration" response. -/
theorem config_disconnected_raises (gid : Int) :
    Admin.config none gid
      = .exc "AttributeError: NoneType object has no attribute get_guild" := rfl

/-- C3 counterexample: the guild record created with no caller-supplied
overrides holds no `verification_type` field at all, in particular not
one with value "button". -/
theorem create_guild_default_lacks_verification_type :
    ¬ (((DatabaseManager.create_guild emptyStore 1 [] 0).1).getVal "verification_type"
        = some (.vstr "button")) := by
  intro h
  rw [show ((DatabaseManager.create_guild emptyStore 1 [] 0).1).getVal "verification_type"
      = none from rfl] at h
  exact Option.noConfusion h

/-- C3 amended: a guild record created with no overrides holds the
default prefix "/", an empty per-module flag mapping, null log channel,
welcome channel and verified-role references and the creation
timestamp, but no verification type field; the string "button" is only
the config handler's read-time fallback
(`guild_config.get('verification_type', 'button')`). -/
theorem create_guild_default_shape (s : Store) (g t : Int) :
    ((DatabaseManager.create_guild s g [] t).1).getVal "guild_id" = some (.vint g) ∧
    ((DatabaseManager.create_guild s g [] t).1).getVal "prefix" = some (.vstr "/") ∧
    ((DatabaseManager.create_guild s g [] t).1).getVal "modules" = some (.vdoc []) ∧
    ((DatabaseManager.create_guild s g [] t).1).getVal "log_channel" = some .vnull ∧
    ((DatabaseManager.create_guild s g [] t).1).getVal "welcome_channel" = some .vnull ∧
    ((DatabaseManager.create_guild s g [] t).1).getVal "verified_role" = some .vnull ∧
    ((DatabaseManager.create_guild s g [] t).1).getVal "created_at" = some (.vint t) ∧
    ((DatabaseManager.create_guild s g [] t).1).getVal "verification_type" = none ∧
    ((DatabaseManager.create_guild s g [] t).1).getValD "verification_type" (.vstr "button")
      = .vstr "button" :=
  ⟨rfl, rfl, rfl, rfl, rfl, rfl, rfl, rfl, rfl⟩

/-- C5 counterexample: with no pre-existing record for key `(1, 1)`,
`create_user` with the override `{"user_id": 2}` (overrides take
precedence, so the stored record's `user_id` becomes 2) followed by
`get_user(1, 1)` returns nothing, not the merged record. -/
theorem create_then_get_key_override_cex :
    DatabaseManager.get_user emptyStore 1 1 = none ∧
    ¬ (DatabaseManager.get_user
        (DatabaseManager.create_user emptyStore 1 1 [("user_id", .vint 2)] 0).2 1 1
        = some ((DatabaseManager.defaultUser 1 1 0).updateFields
            [("user_id", .vint 2)])) := by
  refine ⟨rfl, ?_⟩
  intro h
  rw [show DatabaseManager.get_user
      (DatabaseManager.create_user emptyStore 1 1 [("user_id", .vint 2)] 0).2 1 1
      = none from rfl] at h
  exact Option.noConfusion h

/-- C5 amended: for a key with no pre-existing record and overrides
that do not touch the key fields `user_id` and `guild_id`, `create_user`
followed by `get_user` returns exactly the default record merged with
the overrides. -/
theorem create_then_get_returns_merged (s : Store) (u g t : Int) (data : Doc)
    (habs : DatabaseManager.get_user s u g = none)
    (hu : data.getVal "user_id" = none) (hg : data.getVal "guild_id" = none) :
    DatabaseManager.get_user (DatabaseManager.create_user s u g data t).2 u g
      = some ((DatabaseManager.defaultUser u g t).updateFields data) := by
  have hud : ((DatabaseManager.defaultUser u g t).updateFields data).getVal "user_id"
      = some (.vint u) := by
    rw [Doc.getVal_updateFields_of_absent _ _ _ hu]
    rfl
  have hgd : ((DatabaseManager.defaultUser u g t).updateFields data).getVal "guild_id"
      = some (.vint g) := by
    rw [Doc.getVal_updateFields_of_absent _ _ _ hg]
    rfl
  have hp : DatabaseManager.userFilter u g
      ((DatabaseManager.defaultUser u g t).updateFields data) = true :=
    DatabaseManager.userFilter_eq_true.mpr ⟨hud, hgd⟩
  have habs2 : List.find? (DatabaseManager.userFilter u g) s.users = none := habs
  show (s.users ++ [(DatabaseManager.defaultUser u g t).updateFields data]).find?
      (DatabaseManager.userFilter u g)
      = some ((DatabaseManager.defaultUser u g t).updateFields data)
  rw [List.find?_append, habs2, Option.none_or]
  exact List.find?_cons_of_pos _ hp

/-- Witness for C5 (amended) at the empty store with a `balance`
override. -/
theorem create_then_get_returns_merged_witness :
    DatabaseManager.get_user
      (DatabaseManager.create_user emptyStore 1 1 [("balance", .vint 5)] 0).2 1 1
      = some ((DatabaseManager.defaultUser 1 1 0).updateFields [("balance", .vint 5)]) :=
  create_then_get_returns_merged emptyStore 1 1 0 [("balance", .vint 5)] rfl rfl rfl

/-- C6 counterexample: against an existing record for key `(1, 1)`,
`update_user` with the single-field patch `{"user_id": 99}` followed by
`get_user(1, 1)` finds no record at all, so no record shows the patched
field value. -/
theorem update_then_get_key_field_cex :
    DatabaseManager.get_user oneUserStore 1 1
      = some (DatabaseManager.defaultUser 1 1 0) ∧
    ¬ (∃ d, DatabaseManager.get_user
        (DatabaseManager.update_user oneUserStore 1 1 [("user_id", .vint 99)]).2 1 1
          = some d ∧ d.getVal "user_id" = some (.vint 99)) := by
  refine ⟨rfl, ?_⟩
  rintro ⟨d, hd, hv⟩
  rw [show DatabaseManager.get_user
      (DatabaseManager.update_user oneUserStore 1 1 [("user_id", .vint 99)]).2 1 1
      = none from rfl] at hd
  exact Option.noConfusion hd

/-- C6 amended: `update_user` on a key with no record returns `False`
and leaves the store untouched (so it creates nothing); on an existing
record, a single-field patch `{f: v}` for a non-key field `f` makes
`get_user` return the record with `f` set to `v`. -/
theorem update_user_contract (s : Store) (u g : Int) :
    (∀ data, DatabaseManager.get_user s u g = none →
      DatabaseManager.update_user s u g data = (false, s)) ∧
    (∀ d f v, DatabaseManager.get_user s u g = some d →
      f ≠ "user_id" → f ≠ "guild_id" →
      DatabaseManager.get_user (DatabaseManager.update_user s u g [(f, v)]).2 u g
        = some (d.setKey f v) ∧ (d.setKey f v).getVal f = some v) := by
  constructor
  · intro data habs
    have habs2 : List.find? (DatabaseManager.userFilter u g) s.users = none := habs
    unfold DatabaseManager.update_user
    rw [updateOne_of_find?_none _ _ _ habs2]
  · intro d f v hget hfu hfg
    have hget2 : List.find? (DatabaseManager.userFilter u g) s.users = some d := hget
    obtain ⟨hu, hg⟩ := DatabaseManager.userFilter_eq_true.mp (List.find?_some hget2)
    have hsame : DatabaseManager.userFilter u g (d.setKey f v) = true := by
      refine DatabaseManager.userFilter_eq_true.mpr ⟨?_, ?_⟩
      · rw [Doc.getVal_setKey_ne d f _ v (Ne.symm hfu)]
        exact hu
      · rw [Doc.getVal_setKey_ne d f _ v (Ne.symm hfg)]
        exact hg
    have hupd := updateOne_find?_of_found s.users (DatabaseManager.userFilter u g)
      (fun d => d.updateFields [(f, v)]) d hget2
      (by show DatabaseManager.userFilter u g (d.updateFields [(f, v)]) = true
          exact hsame)
    refine ⟨?_, Doc.getVal_setKey_self d f v⟩
    show (updateOne s.users (DatabaseManager.userFilter u g)
      (fun d => d.updateFields [(f, v)])).2.find? (DatabaseManager.userFilter u g)
      = some (d.setKey f v)
    rw [hupd]
    exact rfl

/-- Witness for C6 (amended): no-op on the empty store, and a `level`
patch against the default record. -/
theorem update_user_contract_witness :
    DatabaseManager.update_user emptyStore 1 1 [("level", .vint 5)]
      = (false, emptyStore) ∧
    DatabaseManager.get_user
      (DatabaseManager.update_user oneUserStore 1 1 [("level", .vint 5)]).2 1 1
      = some ((DatabaseManager.defaultUser 1 1 0).setKey "level" (.vint 5)) ∧
    ((DatabaseManager.defaultUser 1 1 0).setKey "level" (.vint 5)).getVal "level"
      = some (.vint 5) :=
  ⟨(update_user_contract emptyStore 1 1).1 [("level", .vint 5)] rfl,
   ((update_user_contract oneUserStore 1 1).2 (DatabaseManager.defaultUser 1 1 0)
      "level" (.vint 5) rfl (by decide) (by decide)).1,
   ((update_user_contract oneUserStore 1 1).2 (DatabaseManager.defaultUser 1 1 0)
      "level" (.vint 5) rfl (by decide) (by decide)).2⟩

/-- C7: the purge handler rejects an amount outside `[1, 100]` before
issuing any platform bulk-delete or persistence call; inside the range
it issues exactly one bulk-delete call and reports the actual deleted
count, which never exceeds the requested amount. -/
theorem purge_validation_and_count (amount : Int) (deletable : Nat) (forbidden : Bool) :
    ((amount < 1 ∨ 100 < amount) →
      Admin.purge amount deletable forbidden
        = ⟨.invalidAmount, 0, 0⟩) ∧
    (1 ≤ amount → amount ≤ 100 → forbidden = false →
      Admin.purge amount deletable forbidden
          = ⟨.purged (min amount.toNat deletable), 1, 0⟩ ∧
        min amount.toNat deletable ≤ amount.toNat) := by
  constructor
  · intro h
    have hc : (decide (amount < 1) || decide (amount > 100)) = true := by
      simp only [Bool.or_eq_true, decide_eq_true_eq]
      omega
    unfold Admin.purge
    rw [if_pos hc]
  · intro h1 h2 h3
    subst h3
    have hc : ¬ ((decide (amount < 1) || decide (amount > 100)) = true) := by
      simp only [Bool.or_eq_true, decide_eq_true_eq]
      omega
    unfold Admin.purge
    rw [if_neg hc, if_neg (by simp)]
    exact ⟨rfl, Nat.min_le_left _ _⟩

/-- Witness for C7: amount 0 is rejected with no calls; amount 50
against a channel with 10 deletable messages reports 10 deleted. -/
theorem purge_validation_and_count_witness :
    Admin.purge 0 10 false = ⟨.invalidAmount, 0, 0⟩ ∧
    Admin.purge 50 10 false = ⟨.purged 10, 1, 0⟩ :=
  ⟨(purge_validation_and_count 0 10 false).1 (Or.inl (by decide)),
   ((purge_validation_and_count 50 10 false).2 (by decide) (by decide) rfl).1⟩

/-- C8: the leaderboard has at most `limit` entries, is sorted by the
`xp` field in descending order (ties in any order), and every entry is
a record of the queried guild. -/
theorem get_leaderboard_spec (s : Store) (g : Int) (limit : Nat) :
    (DatabaseManager.get_leaderboard s g limit).length ≤ limit ∧
    List.Pairwise (fun a b => DatabaseManager.xpOf b ≤ DatabaseManager.xpOf a)
      (DatabaseManager.get_leaderboard s g limit) ∧
    ∀ d ∈ DatabaseManager.get_leaderboard s g limit,
      d.getVal "guild_id" = some (.vint g) := by
  unfold DatabaseManager.get_leaderboard
  refine ⟨?_, ?_, ?_⟩
  · rw [List.length_take]
    exact Nat.min_le_left _ _
  · have hs := @List.sorted_mergeSort Doc
      (fun a b => decide (DatabaseManager.xpOf b ≤ DatabaseManager.xpOf a))
      (fun a b c hab hbc => by
        simp only [decide_eq_true_eq] at hab hbc ⊢
        omega)
      (fun a b => by
        simp only [Bool.or_eq_true, decide_eq_true_eq]
        omega)
      (s.users.filter (DatabaseManager.guildFilter g))
    have hs2 : List.Pairwise
        (fun a b => DatabaseManager.xpOf b ≤ DatabaseManager.xpOf a)
        ((s.users.filter (DatabaseManager.guildFilter g)).mergeSort
          (fun a b => decide (DatabaseManager.xpOf b ≤ DatabaseManager.xpOf a))) :=
      hs.imp (fun h => by simpa using h)
    exact List.Pairwise.sublist (List.take_sublist _ _) hs2
  · intro d hd
    have hmem := List.mem_of_mem_take hd
    rw [List.mem_mergeSort] at hmem
    exact DatabaseManager.guildFilter_eq_true.mp (List.mem_filter.mp hmem).2

end Logiq
